import Mathlib

/-
  Shallow embedding of the shift-resolution and live-location distribution
  core of the bustrack2025 repository.

  Sources embedded:
  - src/shared/schema.ts           (assignments and locations tables)
  - src/server/storage.ts          (getActiveAssignmentsByDriverId,
                                    getCurrentAndNextShifts, updateDriverLocation,
                                    getDriverLocation, getAllActiveLocations,
                                    setDriverTransmissionStatus, stopDriverTransmission)
  - src/client/src/pages/admin-dashboard.tsx and src/unnamed/part_011
                                   (the useWebSocket onMessage handlers patching the
                                    viewer-local list of active locations)

  Time-of-day values are `HH:MM` strings and the source compares them with
  JavaScript string comparison, i.e. lexicographically on UTF-16 code units;
  for the basic-plane characters appearing in time strings this is
  lexicographic comparison of the code points, which `timeLt`/`timeLe` below
  implement directly (Lean's own String order instances are not used because
  they do not reduce under `decide`).  Database tables are modelled as lists
  of rows, SQL UPDATE ... WHERE as a map over the rows, and `timestamp`
  values as `Nat`.
-/

namespace BusTrack

/-- Strict lexicographic comparison of character lists by code point,
the semantics of JavaScript `<` on (basic-plane) strings. -/
def timeLtChars : List Char → List Char → Bool
  | [], [] => false
  | [], _ :: _ => true
  | _ :: _, [] => false
  | a :: as, b :: bs =>
      if a.toNat < b.toNat then true
      else if b.toNat < a.toNat then false
      else timeLtChars as bs

/-- Non-strict lexicographic comparison of character lists by code point,
the semantics of JavaScript `<=` on (basic-plane) strings. -/
def timeLeChars : List Char → List Char → Bool
  | [], _ => true
  | _ :: _, [] => false
  | a :: as, b :: bs =>
      if a.toNat < b.toNat then true
      else if b.toNat < a.toNat then false
      else timeLeChars as bs

/-- JavaScript string `<` on the two strings, as used on `HH:MM` values. -/
def timeLt (a b : String) : Bool := timeLtChars a.toList b.toList

/-- JavaScript string `<=` on the two strings, as used on `HH:MM` values. -/
def timeLe (a b : String) : Bool := timeLeChars a.toList b.toList

/-- Row of the `assignments` table (src/shared/schema.ts).  `createdAt` is
never read by the embedded operations and is omitted. -/
structure Assignment where
  id : String
  driverId : String
  scheduleId : String
  busId : String
  assignedDate : String
  shiftStart : String
  shiftEnd : String
  isActive : Bool
  deriving Repr, DecidableEq

/-- Predicate of the current-shift scan in getCurrentAndNextShifts:
`currentTime >= assignment.shiftStart && currentTime <= assignment.shiftEnd`. -/
def containsTime (currentTime : String) (a : Assignment) : Bool :=
  timeLe a.shiftStart currentTime && timeLe currentTime a.shiftEnd

/-- Predicate of the future-shift filter in getCurrentAndNextShifts:
`a.shiftStart > currentTime`. -/
def isFutureShift (currentTime : String) (a : Assignment) : Bool :=
  timeLt currentTime a.shiftStart

/-- Core of storage.getCurrentAndNextShifts (src/server/storage.ts, lines
241-273), taking the already-fetched list of active assignments (ordered by
`shiftStart`, as getActiveAssignmentsByDriverId returns it) and the formatted
Guatemala-time `HH:MM` string.  The for-loop with break is `List.find?`; the
filter plus `futureShifts[0]` / `activeAssignments[0]` fallback is as below. -/
def getCurrentAndNextShifts (activeAssignments : List Assignment)
    (currentTime : String) : Option Assignment × Option Assignment :=
  if activeAssignments = [] then (none, none)
  else
    let current := activeAssignments.find? (containsTime currentTime)
    let futureShifts := activeAssignments.filter (isFutureShift currentTime)
    let next := match futureShifts with
      | [] => activeAssignments.head?
      | f :: _ => some f
    (current, next)

/-- Insertion step of the `ORDER BY shiftStart` sort used by
getActiveAssignmentsByDriverId: place `a` before the first element whose
`shiftStart` is not below `a`'s. -/
def insertByShiftStart (a : Assignment) : List Assignment → List Assignment
  | [] => [a]
  | b :: t => if timeLt b.shiftStart a.shiftStart then b :: insertByShiftStart a t
              else a :: b :: t

/-- Sort by `shiftStart` ascending (model of the drizzle `orderBy`). -/
def sortByShiftStart (l : List Assignment) : List Assignment :=
  l.foldr insertByShiftStart []

/-- storage.getActiveAssignmentsByDriverId (src/server/storage.ts, lines
224-235): all rows with the given driverId and isActive = true, ordered by
shiftStart; `assignedDate` is not consulted. -/
def getActiveAssignmentsByDriverId (allAssignments : List Assignment)
    (driverId : String) : List Assignment :=
  sortByShiftStart (allAssignments.filter
    (fun a => a.driverId == driverId && a.isActive))

/-- Full pipeline of storage.getCurrentAndNextShifts (lines 238-274): fetch
the driver's active assignments, then resolve against the current time. -/
def getCurrentAndNextShiftsForDriver (allAssignments : List Assignment)
    (driverId : String) (currentTime : String) :
    Option Assignment × Option Assignment :=
  getCurrentAndNextShifts (getActiveAssignmentsByDriverId allAssignments driverId)
    currentTime

/-- A well-formed `HH:MM` time-of-day string: two digits, a colon, two digits,
with hour below 24 and minute below 60.  The source never performs this
check; it is stated here only to express claims about malformed input. -/
def wellFormedTime (s : String) : Bool :=
  match s.toList with
  | [h1, h2, c, m1, m2] =>
      h1.isDigit && h2.isDigit && c = ':' && m1.isDigit && m2.isDigit &&
      ((h1.toNat - 48) * 10 + (h2.toNat - 48) < 24) &&
      ((m1.toNat - 48) * 10 + (m2.toNat - 48) < 60)
  | _ => false

/-- Sample assignment used in concrete scenarios (08:00-12:00 shift). -/
def shiftA : Assignment :=
  { id := "a1", driverId := "d1", scheduleId := "s1", busId := "b1",
    assignedDate := "2025-01-01", shiftStart := "08:00", shiftEnd := "12:00",
    isActive := true }

/-- Sample assignment used in concrete scenarios (13:00-17:00 shift). -/
def shiftB : Assignment :=
  { id := "a2", driverId := "d1", scheduleId := "s1", busId := "b1",
    assignedDate := "2025-01-01", shiftStart := "13:00", shiftEnd := "17:00",
    isActive := true }

example : getCurrentAndNextShifts [shiftA, shiftB] "10:30" =
    (some shiftA, some shiftB) := by decide

example : getCurrentAndNextShifts [shiftA, shiftB] "12:30" =
    (none, some shiftB) := by decide

example : getCurrentAndNextShifts [shiftA, shiftB] "18:00" =
    (none, some shiftA) := by decide

/-- Row of the `locations` table (src/shared/schema.ts): at most one current
position per driver is maintained by the upsert logic, `timestamp` modelled
as a natural number. -/
structure Location where
  id : String
  driverId : String
  latitude : String
  longitude : String
  timestamp : Nat
  isTransmitting : Bool
  deriving Repr, DecidableEq

/-- The payload accepted by updateDriverLocation (insertLocationSchema in
src/shared/schema.ts omits `id` and `timestamp`). -/
structure InsertLocation where
  driverId : String
  latitude : String
  longitude : String
  isTransmitting : Bool
  deriving Repr, DecidableEq

/-- storage.updateDriverLocation (src/server/storage.ts, lines 290-318): look
for an existing row with the same driverId; if found, UPDATE the row with
that id, overwriting coordinates, flag and timestamp; otherwise INSERT a new
row (`now` is the write time, `newId` the id the database generates for an
insert).  Returns the written record and the resulting table. -/
def updateDriverLocation (db : List Location) (ins : InsertLocation)
    (now : Nat) (newId : String) : Location × List Location :=
  match db.find? (fun r => r.driverId == ins.driverId) with
  | some existing =>
      let updated : Location :=
        { existing with
          latitude := ins.latitude
          longitude := ins.longitude
          isTransmitting := ins.isTransmitting
          timestamp := now }
      (updated, db.map (fun r => if r.id == existing.id then updated else r))
  | none =>
      let created : Location :=
        { id := newId, driverId := ins.driverId, latitude := ins.latitude,
          longitude := ins.longitude, timestamp := now,
          isTransmitting := ins.isTransmitting }
      (created, db ++ [created])

/-- storage.getDriverLocation (lines 320-326): first row with the driverId. -/
def getDriverLocation (db : List Location) (driverId : String) :
    Option Location :=
  db.find? (fun r => r.driverId == driverId)

/-- storage.getAllActiveLocations (lines 328-333): rows with
isTransmitting = true. -/
def getAllActiveLocations (db : List Location) : List Location :=
  db.filter (fun r => r.isTransmitting)

/-- storage.setDriverTransmissionStatus (lines 335-343): UPDATE flag and
timestamp on every row with the driverId (a no-op when none matches). -/
def setDriverTransmissionStatus (db : List Location) (driverId : String)
    (isTransmitting : Bool) (now : Nat) : List Location :=
  db.map (fun r =>
    if r.driverId == driverId then
      { r with isTransmitting := isTransmitting, timestamp := now }
    else r)

/-- storage.stopDriverTransmission (lines 345-353): UPDATE flag to false and
timestamp on every row with the driverId (a no-op when none matches). -/
def stopDriverTransmission (db : List Location) (driverId : String)
    (now : Nat) : List Location :=
  db.map (fun r =>
    if r.driverId == driverId then
      { r with isTransmitting := false, timestamp := now }
    else r)

/-- One write operation against the Location Ledger: a location upsert
(updateDriverLocation) or a transmission-flag write
(setDriverTransmissionStatus). -/
inductive LedgerOp where
  | upsert (ins : InsertLocation)
  | setStatus (driverId : String) (isTransmitting : Bool)
  deriving Repr, DecidableEq

/-- A ledger operation together with its wall-clock time and, for an upsert
that inserts, the id the database would generate for the new row. -/
structure LedgerStep where
  op : LedgerOp
  time : Nat
  newId : String
  deriving Repr, DecidableEq

/-- Apply one ledger operation to the locations table. -/
def applyStep (db : List Location) (s : LedgerStep) : List Location :=
  match s.op with
  | .upsert ins => (updateDriverLocation db ins s.time s.newId).2
  | .setStatus d b => setDriverTransmissionStatus db d b s.time

/-- Apply a sequence of ledger operations in order. -/
def applySteps (steps : List LedgerStep) (db : List Location) : List Location :=
  steps.foldl applyStep db

/-- Append a driver id if it has not been seen yet. -/
def insertNewDriver (seen : List String) (d : String) : List String :=
  if d ∈ seen then seen else seen ++ [d]

/-- Fold step collecting the driver ids the ledger operations upsert. -/
def upsertFold (seen : List String) (s : LedgerStep) : List String :=
  match s.op with
  | .upsert ins => insertNewDriver seen ins.driverId
  | .setStatus _ _ => seen

/-- The distinct driver ids upserted by a sequence of ledger operations, in
order of first upsert.  Driver ids mentioned only by setStatus operations are
not included. -/
def upsertedDrivers (steps : List LedgerStep) : List String :=
  steps.foldl upsertFold []

/-- Fold step collecting every driver id the ledger operations mention,
whether by upsert or by a transmission-flag write. -/
def mentionFold (seen : List String) (s : LedgerStep) : List String :=
  match s.op with
  | .upsert ins => insertNewDriver seen ins.driverId
  | .setStatus d _ => insertNewDriver seen d

/-- The distinct driver ids mentioned by a sequence of ledger operations. -/
def mentionedDrivers (steps : List LedgerStep) : List String :=
  steps.foldl mentionFold []

/-- Events delivered to a viewer by the WebSocket push channel
(`message.type` and `message.data` in the onMessage handlers). -/
inductive WsMessage where
  | locationUpdate (data : Location)
  | transmissionStatusUpdate (driverId : String) (isTransmitting : Bool)
  | transmissionStatus (driverId : String) (isTransmitting : Bool)
  | transmissionStopped (driverId : String)
  deriving Repr, DecidableEq

/-- The useWebSocket onMessage handler of the current admin dashboard
(src/client/src/pages/admin-dashboard.tsx, lines 59-81), restricted to its
effect on the viewer-local `activeLocations` state: `locationUpdate` replaces
the entry at the index found by findIndex, or pushes a new one; the three
transmission-status message types only invalidate and refetch the query
cache and leave `activeLocations` untouched. -/
def adminOnMessage (prev : List Location) (msg : WsMessage) : List Location :=
  match msg with
  | .locationUpdate data =>
      match prev.findIdx? (fun loc => loc.driverId == data.driverId) with
      | some i => prev.set i data
      | none => prev ++ [data]
  | .transmissionStatusUpdate _ _ => prev
  | .transmissionStatus _ _ => prev
  | .transmissionStopped _ => prev

/-- The useWebSocket onMessage handler of the admin dashboard version in
src/unnamed/part_011 (lines 50-86, also src/unnamed/part_008): identical to
adminOnMessage except that `transmissionStopped` additionally filters the
stopped driver out of the local `activeLocations` state. -/
def adminOnMessagePart011 (prev : List Location) (msg : WsMessage) :
    List Location :=
  match msg with
  | .locationUpdate data =>
      match prev.findIdx? (fun loc => loc.driverId == data.driverId) with
      | some i => prev.set i data
      | none => prev ++ [data]
  | .transmissionStatusUpdate _ _ => prev
  | .transmissionStatus _ _ => prev
  | .transmissionStopped d => prev.filter (fun loc => loc.driverId != d)

/-! Helper lemmas about the lexicographic comparison and about `List.find?`. -/

theorem timeLeChars_refl : ∀ l : List Char, timeLeChars l l = true := by
  intro l
  induction l with
  | nil => rfl
  | cons a t ih => simp [timeLeChars, Nat.lt_irrefl, ih]

theorem timeLe_refl (s : String) : timeLe s s = true :=
  timeLeChars_refl s.toList

theorem find?_first_of_pairwise {α : Type} {R : α → α → Prop} {p : α → Bool} :
    ∀ {l : List α}, l.Pairwise R → ∀ {c : α}, l.find? p = some c →
      ∀ b ∈ l, p b = true → c = b ∨ R c b := by
  intro l
  induction l with
  | nil => intro _ c hc; simp at hc
  | cons a t ih =>
    intro hp c hc b hb hpb
    rcases List.pairwise_cons.mp hp with ⟨ha, ht⟩
    by_cases hpa : p a = true
    · rw [List.find?_cons_of_pos _ hpa] at hc
      cases hc
      rcases List.mem_cons.mp hb with rfl | hbt
      · exact Or.inl rfl
      · exact Or.inr (ha b hbt)
    · rw [List.find?_cons_of_neg _ hpa] at hc
      rcases List.mem_cons.mp hb with rfl | hbt
      · exact absurd hpb hpa
      · exact ih ht hc b hbt hpb

theorem find?_eq_filter_head {α : Type} (p : α → Bool) :
    ∀ l : List α, l.find? p = (l.filter p).head? := by
  intro l
  induction l with
  | nil => rfl
  | cons a t ih =>
    by_cases hpa : p a = true
    · rw [List.find?_cons_of_pos _ hpa, List.filter_cons_of_pos hpa]; rfl
    · rw [List.find?_cons_of_neg _ hpa, List.filter_cons_of_neg hpa]; exact ih

theorem current_eq_find (l : List Assignment) (now : String) :
    (getCurrentAndNextShifts l now).1 = l.find? (containsTime now) := by
  by_cases h : l = []
  · subst h; rfl
  · simp [getCurrentAndNextShifts, h]

theorem next_eq_of_nofuture (l : List Assignment) (now : String) (hne : l ≠ [])
    (hfil : l.filter (isFutureShift now) = []) :
    (getCurrentAndNextShifts l now).2 = l.head? := by
  simp [getCurrentAndNextShifts, hne, hfil]

theorem next_eq_of_future (l : List Assignment) (now : String) (hne : l ≠ [])
    (f : Assignment) (fs : List Assignment)
    (hfil : l.filter (isFutureShift now) = f :: fs) :
    (getCurrentAndNextShifts l now).2 = some f := by
  simp [getCurrentAndNextShifts, hne, hfil]

/-- C1: over a list of active assignments sorted ascending by shiftStart, the
resolver's `current` is the earliest-starting assignment whose inclusive
[shiftStart, shiftEnd] window contains the current HH:MM (the first match in
sorted order when several overlap), and is `none` exactly when no window
contains the time. -/
theorem currentShift_first_containing (l : List Assignment) (now : String)
    (hsorted : l.Pairwise (fun a b => timeLe a.shiftStart b.shiftStart = true)) :
    ((getCurrentAndNextShifts l now).1 = none ↔
      ∀ b ∈ l, containsTime now b = false) ∧
    ∀ c, (getCurrentAndNextShifts l now).1 = some c →
      c ∈ l ∧ containsTime now c = true ∧
      ∀ b ∈ l, containsTime now b = true →
        timeLe c.shiftStart b.shiftStart = true := by
  rw [current_eq_find]
  constructor
  · rw [List.find?_eq_none]
    constructor
    · intro h b hb
      simpa using h b hb
    · intro h b hb
      simp [h b hb]
  · intro c hc
    refine ⟨List.mem_of_find?_eq_some hc, List.find?_some hc, ?_⟩
    intro b hb hpb
    rcases find?_first_of_pairwise hsorted hc b hb hpb with rfl | hR
    · exact timeLe_refl _
    · exact hR

/-- C1 witness: the spec's scenario, shifts 08:00-12:00 and 13:00-17:00 at
now = 10:30. -/
theorem currentShift_first_containing_witness :
    ([shiftA, shiftB].Pairwise
      (fun a b => timeLe a.shiftStart b.shiftStart = true)) ∧
    (((getCurrentAndNextShifts [shiftA, shiftB] "10:30").1 = none ↔
      ∀ b ∈ [shiftA, shiftB], containsTime "10:30" b = false) ∧
    ∀ c, (getCurrentAndNextShifts [shiftA, shiftB] "10:30").1 = some c →
      c ∈ [shiftA, shiftB] ∧ containsTime "10:30" c = true ∧
      ∀ b ∈ [shiftA, shiftB], containsTime "10:30" b = true →
        timeLe c.shiftStart b.shiftStart = true) :=
  ⟨by decide, currentShift_first_containing [shiftA, shiftB] "10:30" (by decide)⟩

/-- C2: over a nonempty sorted list of active assignments, `next` is the
earliest assignment starting strictly after the current time, and when no
assignment starts strictly later, `next` wraps around to the assignment with
the minimum shiftStart in the full list. -/
theorem nextShift_earliest_future_or_wraparound (l : List Assignment)
    (now : String)
    (hsorted : l.Pairwise (fun a b => timeLe a.shiftStart b.shiftStart = true))
    (hne : l ≠ []) :
    ∃ a, (getCurrentAndNextShifts l now).2 = some a ∧ a ∈ l ∧
      ((∃ b ∈ l, isFutureShift now b = true) →
        isFutureShift now a = true ∧
        ∀ b ∈ l, isFutureShift now b = true →
          timeLe a.shiftStart b.shiftStart = true) ∧
      ((∀ b ∈ l, isFutureShift now b = false) →
        ∀ b ∈ l, timeLe a.shiftStart b.shiftStart = true) := by
  cases hfil : l.filter (isFutureShift now) with
  | nil =>
    cases l with
    | nil => exact absurd rfl hne
    | cons h t =>
      refine ⟨h, ?_, List.mem_cons_self h t, ?_, ?_⟩
      · rw [next_eq_of_nofuture _ now hne hfil]; rfl
      · rintro ⟨b, hb, hfb⟩
        exact absurd hfb (by simpa using List.filter_eq_nil_iff.mp hfil b hb)
      · intro _ b hb
        rcases List.mem_cons.mp hb with rfl | hbt
        · exact timeLe_refl _
        · exact (List.pairwise_cons.mp hsorted).1 b hbt
  | cons f fs =>
    have hmemf : f ∈ l.filter (isFutureShift now) := by
      rw [hfil]; exact List.mem_cons_self f fs
    have hfl : f ∈ l := List.mem_of_mem_filter hmemf
    have hff : isFutureShift now f = true := List.of_mem_filter hmemf
    have hfind : l.find? (isFutureShift now) = some f := by
      rw [find?_eq_filter_head, hfil]; rfl
    refine ⟨f, next_eq_of_future _ now hne f fs hfil, hfl, ?_, ?_⟩
    · intro _
      refine ⟨hff, ?_⟩
      intro b hb hfb
      rcases find?_first_of_pairwise hsorted hfind b hb hfb with rfl | hR
      · exact timeLe_refl _
      · exact hR
    · intro hnone
      exact absurd hff (by simp [hnone f hfl])

/-- C2 witness: the spec's wraparound scenario, now = 18:00 past both shifts,
next wraps to the 08:00-12:00 shift. -/
theorem nextShift_earliest_future_or_wraparound_witness :
    ([shiftA, shiftB].Pairwise
      (fun a b => timeLe a.shiftStart b.shiftStart = true)) ∧
    ([shiftA, shiftB] ≠ ([] : List Assignment)) ∧
    (∃ a, (getCurrentAndNextShifts [shiftA, shiftB] "18:00").2 = some a ∧
      a ∈ [shiftA, shiftB] ∧
      ((∃ b ∈ [shiftA, shiftB], isFutureShift "18:00" b = true) →
        isFutureShift "18:00" a = true ∧
        ∀ b ∈ [shiftA, shiftB], isFutureShift "18:00" b = true →
          timeLe a.shiftStart b.shiftStart = true) ∧
      ((∀ b ∈ [shiftA, shiftB], isFutureShift "18:00" b = false) →
        ∀ b ∈ [shiftA, shiftB], timeLe a.shiftStart b.shiftStart = true)) :=
  ⟨by decide, by decide,
    nextShift_earliest_future_or_wraparound [shiftA, shiftB] "18:00"
      (by decide) (by decide)⟩

/-- C7 counterexample: on the malformed time string "8:30" (missing leading
zero) the resolve call completes normally with an ordinary result instead of
failing. -/
theorem malformedTime_completes_without_error :
    wellFormedTime "8:30" = false ∧
    getCurrentAndNextShifts [shiftA] "8:30" = (none, some shiftA) := by decide

/-- C7 amended: the resolver never fails on a malformed time string; it
silently computes an answer by lexicographic string comparison, and that
answer can be wrong: "8:30" denotes 08:30, which lies inside the 08:00-12:00
shift, yet the resolver reports no current shift for "8:30" while it does
for "08:30". -/
theorem malformedTime_silently_wrong_answer :
    wellFormedTime "8:30" = false ∧
    containsTime "08:30" shiftA = true ∧
    (getCurrentAndNextShifts [shiftA] "8:30").1 = none ∧
    (getCurrentAndNextShifts [shiftA] "08:30").1 = some shiftA := by decide

/-- C8: a driver with zero active assignment rows (in particular a driver id
unknown to the system) resolves to current = none and next = none as an
ordinary, non-error result. -/
theorem noActiveAssignments_resolves_to_none (allAssignments : List Assignment)
    (driverId now : String)
    (h : ∀ a ∈ allAssignments, a.driverId ≠ driverId ∨ a.isActive = false) :
    getCurrentAndNextShiftsForDriver allAssignments driverId now =
      (none, none) := by
  have hfil : allAssignments.filter
      (fun a => a.driverId == driverId && a.isActive) = [] := by
    rw [List.filter_eq_nil_iff]
    intro a ha
    rcases h a ha with h1 | h2
    · simp [h1]
    · simp [h2]
  simp [getCurrentAndNextShiftsForDriver, getActiveAssignmentsByDriverId, hfil,
    sortByShiftStart, getCurrentAndNextShifts]

/-- C8 witness: an unknown driver id over a table holding only shiftA. -/
theorem noActiveAssignments_resolves_to_none_witness :
    (∀ a ∈ [shiftA], a.driverId ≠ "nobody" ∨ a.isActive = false) ∧
    getCurrentAndNextShiftsForDriver [shiftA] "nobody" "10:30" =
      (none, none) :=
  ⟨by decide, noActiveAssignments_resolves_to_none [shiftA] "nobody" "10:30"
    (by decide)⟩

/-! Non-interference of `assignedDate` with shift resolution (C9). -/

/-- Erase the assignedDate field, keeping every other field: two assignment
lists agree up to assignedDate exactly when their eraseDate images are
equal. -/
def eraseDate (a : Assignment) : Assignment := { a with assignedDate := "" }

theorem find?_map_comm {α β : Type} (f : α → β) (p : β → Bool) :
    ∀ l : List α, (l.map f).find? p = (l.find? (fun a => p (f a))).map f := by
  intro l
  induction l with
  | nil => rfl
  | cons a t ih =>
    by_cases hpa : p (f a) = true
    · rw [List.map_cons, List.find?_cons_of_pos (List.map f t) hpa,
        List.find?_cons_of_pos (p := fun x => p (f x)) t hpa]
      rfl
    · rw [List.map_cons, List.find?_cons_of_neg (List.map f t) hpa,
        List.find?_cons_of_neg (p := fun x => p (f x)) t hpa]
      exact ih

theorem filter_map_comm {α β : Type} (f : α → β) (p : β → Bool) :
    ∀ l : List α, (l.map f).filter p = (l.filter (fun a => p (f a))).map f := by
  intro l
  induction l with
  | nil => rfl
  | cons a t ih =>
    by_cases hpa : p (f a) = true
    · rw [List.map_cons, List.filter_cons_of_pos hpa,
        List.filter_cons_of_pos (p := fun x => p (f x)) hpa, List.map_cons, ih]
    · rw [List.map_cons, List.filter_cons_of_neg hpa,
        List.filter_cons_of_neg (p := fun x => p (f x)) hpa, ih]

theorem head?_map_comm {α β : Type} (f : α → β) :
    ∀ l : List α, (l.map f).head? = l.head?.map f := by
  intro l
  cases l <;> rfl

theorem eraseDate_shiftStart (a : Assignment) :
    (eraseDate a).shiftStart = a.shiftStart := rfl

theorem insertByShiftStart_map_eraseDate (a : Assignment) :
    ∀ l : List Assignment,
      insertByShiftStart (eraseDate a) (l.map eraseDate) =
        (insertByShiftStart a l).map eraseDate := by
  intro l
  induction l with
  | nil => rfl
  | cons b t ih =>
    by_cases h : timeLt b.shiftStart a.shiftStart = true
    · simp [insertByShiftStart, eraseDate_shiftStart, h, ih]
    · simp [insertByShiftStart, eraseDate_shiftStart, h]

theorem sortByShiftStart_map_eraseDate :
    ∀ l : List Assignment,
      sortByShiftStart (l.map eraseDate) = (sortByShiftStart l).map eraseDate := by
  intro l
  induction l with
  | nil => rfl
  | cons a t ih =>
    show insertByShiftStart (eraseDate a) (sortByShiftStart (t.map eraseDate)) = _
    rw [ih, insertByShiftStart_map_eraseDate]
    rfl

theorem getCurrentAndNextShifts_map_eraseDate (l : List Assignment)
    (now : String) :
    getCurrentAndNextShifts (l.map eraseDate) now =
      ((getCurrentAndNextShifts l now).1.map eraseDate,
       (getCurrentAndNextShifts l now).2.map eraseDate) := by
  by_cases h : l = []
  · subst h; rfl
  · have hne : l.map eraseDate ≠ [] := by simpa using h
    simp only [getCurrentAndNextShifts, if_neg h, if_neg hne]
    rw [find?_map_comm, filter_map_comm]
    have h1 : (fun a => containsTime now (eraseDate a)) = containsTime now := rfl
    have h2 : (fun a => isFutureShift now (eraseDate a)) = isFutureShift now := rfl
    rw [h1, h2]
    cases hfil : l.filter (isFutureShift now) with
    | nil => simp [head?_map_comm]
    | cons f fs => simp

theorem pipeline_map_eraseDate (db : List Assignment) (d now : String) :
    getCurrentAndNextShiftsForDriver (db.map eraseDate) d now =
      ((getCurrentAndNextShiftsForDriver db d now).1.map eraseDate,
       (getCurrentAndNextShiftsForDriver db d now).2.map eraseDate) := by
  unfold getCurrentAndNextShiftsForDriver getActiveAssignmentsByDriverId
  rw [filter_map_comm]
  have h1 : (fun a => (eraseDate a).driverId == d && (eraseDate a).isActive) =
      (fun a => a.driverId == d && a.isActive) := rfl
  rw [h1, sortByShiftStart_map_eraseDate, getCurrentAndNextShifts_map_eraseDate]

/-- C9: the resolver is independent of assignedDate — for any two assignment
tables that agree on every field except assignedDate, and any driver and
time, the resolved current and next shifts are the same up to their own
assignedDate fields. -/
theorem resolver_independent_of_assignedDate (db1 db2 : List Assignment)
    (d now : String) (h : db1.map eraseDate = db2.map eraseDate) :
    (getCurrentAndNextShiftsForDriver db1 d now).1.map eraseDate =
      (getCurrentAndNextShiftsForDriver db2 d now).1.map eraseDate ∧
    (getCurrentAndNextShiftsForDriver db1 d now).2.map eraseDate =
      (getCurrentAndNextShiftsForDriver db2 d now).2.map eraseDate := by
  have e1 := pipeline_map_eraseDate db1 d now
  have e2 := pipeline_map_eraseDate db2 d now
  rw [h] at e1
  have e3 := e1.symm.trans e2
  exact ⟨congrArg Prod.fst e3, congrArg Prod.snd e3⟩

/-- Copy of shiftA on a different calendar date, used to witness C9. -/
def shiftA99 : Assignment := { shiftA with assignedDate := "1999-12-31" }

/-- C9 witness: the same shift on two different assignedDate values resolves
identically up to assignedDate. -/
theorem resolver_independent_of_assignedDate_witness :
    ([shiftA].map eraseDate = [shiftA99].map eraseDate) ∧
    ((getCurrentAndNextShiftsForDriver [shiftA] "d1" "10:30").1.map eraseDate =
      (getCurrentAndNextShiftsForDriver [shiftA99] "d1" "10:30").1.map eraseDate ∧
     (getCurrentAndNextShiftsForDriver [shiftA] "d1" "10:30").2.map eraseDate =
      (getCurrentAndNextShiftsForDriver [shiftA99] "d1" "10:30").2.map eraseDate) :=
  ⟨by decide,
    resolver_independent_of_assignedDate [shiftA] [shiftA99] "d1" "10:30"
      (by decide)⟩

/-! The Location Ledger: upsert and flag-write lemmas (C3, C4, C10). -/

/-- The rows of the locations table belonging to one driver. -/
def locationsForDriver (db : List Location) (d : String) : List Location :=
  db.filter (fun r => r.driverId == d)

theorem getDriverLocation_eq_head (db : List Location) (d : String) :
    getDriverLocation db d = (locationsForDriver db d).head? :=
  find?_eq_filter_head _ db

theorem findDriver_eq_none_iff (db : List Location) (d : String) :
    db.find? (fun r => r.driverId == d) = none ↔
      d ∉ db.map Location.driverId := by
  rw [List.find?_eq_none]
  constructor
  · intro h hc
    rcases List.mem_map.mp hc with ⟨r, hr, hrd⟩
    exact h r hr (by simp [hrd])
  · intro h r hr hc
    exact h (List.mem_map.mpr ⟨r, hr, by simpa using hc⟩)

theorem mem_eq_of_id_eq {db : List Location}
    (hnd : (db.map Location.id).Nodup) {r e : Location}
    (hr : r ∈ db) (he : e ∈ db) (h : r.id = e.id) : r = e :=
  List.inj_on_of_nodup_map hnd hr he h

theorem map_attr_of_preserve {β : Type} (g : Location → Location)
    (f : Location → β) :
    ∀ db : List Location, (∀ r ∈ db, f (g r) = f r) →
      (db.map g).map f = db.map f := by
  intro db
  induction db with
  | nil => intro _; rfl
  | cons r t ih =>
    intro h
    simp only [List.map_cons]
    rw [h r (List.mem_cons_self r t),
      ih (fun x hx => h x (List.mem_cons_of_mem r hx))]

theorem map_if_not_matched {α : Type} (c : α → Bool) (g : α → α) :
    ∀ l : List α, (∀ r ∈ l, c r = false) →
      l.map (fun r => if c r then g r else r) = l := by
  intro l
  induction l with
  | nil => intro _; rfl
  | cons a t ih =>
    intro h
    simp only [List.map_cons]
    rw [if_neg (by simp [h a (List.mem_cons_self a t)]),
      ih (fun x hx => h x (List.mem_cons_of_mem a hx))]

theorem eq_singleton_of_length_head {α : Type} (l : List α) (x : α)
    (h1 : l.length = 1) (h2 : l.head? = some x) : l = [x] := by
  cases l with
  | nil => simp at h2
  | cons a t =>
    cases t with
    | nil =>
      have : a = x := by simpa using h2
      simp [this]
    | cons b u => simp at h1

/-- The written row of the found branch of updateDriverLocation. -/
def updatedRow (e : Location) (ins : InsertLocation) (now : Nat) : Location :=
  { e with
    latitude := ins.latitude
    longitude := ins.longitude
    isTransmitting := ins.isTransmitting
    timestamp := now }

/-- The written row of the insert branch of updateDriverLocation. -/
def createdRow (ins : InsertLocation) (now : Nat) (newId : String) : Location :=
  { id := newId, driverId := ins.driverId, latitude := ins.latitude,
    longitude := ins.longitude, timestamp := now,
    isTransmitting := ins.isTransmitting }

theorem updateDriverLocation_found (db : List Location) (ins : InsertLocation)
    (now : Nat) (newId : String) (e : Location)
    (h : db.find? (fun r => r.driverId == ins.driverId) = some e) :
    updateDriverLocation db ins now newId =
      (updatedRow e ins now,
       db.map (fun r => if r.id == e.id then updatedRow e ins now else r)) := by
  simp [updateDriverLocation, h, updatedRow]

theorem updateDriverLocation_not_found (db : List Location)
    (ins : InsertLocation) (now : Nat) (newId : String)
    (h : db.find? (fun r => r.driverId == ins.driverId) = none) :
    updateDriverLocation db ins now newId =
      (createdRow ins now newId, db ++ [createdRow ins now newId]) := by
  simp [updateDriverLocation, h, createdRow]

theorem find?_update_first (p : Location → Bool) (u : Location)
    (hu : p u = true) :
    ∀ (db : List Location) (e : Location),
      db.find? p = some e →
      (db.map Location.id).Nodup →
      (db.map (fun r => if r.id == e.id then u else r)).find? p = some u := by
  intro db
  induction db with
  | nil => intro e he _; simp at he
  | cons r t ih =>
    intro e he hnd
    have hnd2 : r.id ∉ t.map Location.id ∧ (t.map Location.id).Nodup := by
      simpa [List.nodup_cons] using hnd
    by_cases hp : p r = true
    · rw [List.find?_cons_of_pos _ hp] at he
      cases he
      simp only [List.map_cons, if_pos (beq_self_eq_true r.id)]
      exact List.find?_cons_of_pos _ hu
    · rw [List.find?_cons_of_neg _ hp] at he
      have hemem : e ∈ t := List.mem_of_find?_eq_some he
      have hne : (r.id == e.id) = false := by
        apply beq_eq_false_iff_ne.mpr
        intro hc
        exact hnd2.1 (hc ▸ List.mem_map_of_mem Location.id hemem)
      simp only [List.map_cons, hne]
      rw [if_neg (by simp), List.find?_cons_of_neg _ hp]
      exact ih e he hnd2.2

theorem locationsForDriver_length_map (db : List Location) (d : String) :
    (locationsForDriver db d).length =
      ((db.map Location.driverId).filter (fun x => x == d)).length := by
  induction db with
  | nil => rfl
  | cons r t ih =>
    by_cases h : (r.driverId == d) = true
    · simp only [locationsForDriver, List.map_cons, List.filter_cons, h,
        if_true, List.length_cons]
      simpa [locationsForDriver] using ih
    · simp only [locationsForDriver, List.map_cons, List.filter_cons, h,
        if_false]
      simpa [locationsForDriver] using ih

theorem locationsForDriver_active_comm (db : List Location) (d : String) :
    locationsForDriver (getAllActiveLocations db) d =
      (locationsForDriver db d).filter (fun r => r.isTransmitting) := by
  induction db with
  | nil => rfl
  | cons r t ih =>
    by_cases ht : r.isTransmitting = true
    · by_cases hd : (r.driverId == d) = true
      · simp [locationsForDriver, getAllActiveLocations, ht, hd] at ih ⊢
        exact ih
      · simp [locationsForDriver, getAllActiveLocations, ht, hd] at ih ⊢
        exact ih
    · by_cases hd : (r.driverId == d) = true
      · simp [locationsForDriver, getAllActiveLocations, ht, hd] at ih ⊢
        exact ih
      · simp [locationsForDriver, getAllActiveLocations, ht, hd] at ih ⊢
        exact ih

theorem upsert_found_maps (db : List Location) (ins : InsertLocation)
    (now : Nat) (e : Location)
    (hfind : db.find? (fun r => r.driverId == ins.driverId) = some e)
    (hids : (db.map Location.id).Nodup) :
    (db.map (fun r => if r.id == e.id then updatedRow e ins now else r)).map
        Location.id = db.map Location.id ∧
    (db.map (fun r => if r.id == e.id then updatedRow e ins now else r)).map
        Location.driverId = db.map Location.driverId := by
  have hemem : e ∈ db := List.mem_of_find?_eq_some hfind
  constructor
  · apply map_attr_of_preserve
    intro r hr
    by_cases h : (r.id == e.id) = true
    · rw [if_pos h]
      have hre : r.id = e.id := by simpa using h
      exact hre.symm
    · rw [if_neg (by simp [h])]
  · apply map_attr_of_preserve
    intro r hr
    by_cases h : (r.id == e.id) = true
    · rw [if_pos h]
      have hre : r.id = e.id := by simpa using h
      have : r = e := mem_eq_of_id_eq hids hr hemem hre
      rw [this]
      rfl
    · rw [if_neg (by simp [h])]

theorem upsert_found_spec (db : List Location) (ins : InsertLocation)
    (now : Nat) (newId : String) (e : Location)
    (hfind : db.find? (fun r => r.driverId == ins.driverId) = some e)
    (hids : (db.map Location.id).Nodup)
    (hcount : (locationsForDriver db ins.driverId).length ≤ 1) :
    locationsForDriver (updateDriverLocation db ins now newId).2 ins.driverId
      = [updatedRow e ins now] ∧
    (updateDriverLocation db ins now newId).1 = updatedRow e ins now ∧
    (updateDriverLocation db ins now newId).2.map Location.id =
      db.map Location.id ∧
    (updateDriverLocation db ins now newId).2.map Location.driverId =
      db.map Location.driverId := by
  have heq := updateDriverLocation_found db ins now newId e hfind
  have hmaps := upsert_found_maps db ins now e hfind hids
  have hpe0 := List.find?_some hfind
  have hpe : (e.driverId == ins.driverId) = true := hpe0
  have hpu : ((updatedRow e ins now).driverId == ins.driverId) = true := hpe
  have hfindu := find?_update_first (fun r => r.driverId == ins.driverId)
    (updatedRow e ins now) hpu db e hfind hids
  have hone : (locationsForDriver db ins.driverId).length = 1 := by
    have hmem : e ∈ locationsForDriver db ins.driverId :=
      List.mem_filter.mpr ⟨List.mem_of_find?_eq_some hfind, hpe⟩
    have hpos : 0 < (locationsForDriver db ins.driverId).length :=
      List.length_pos.mpr (List.ne_nil_of_mem hmem)
    omega
  rw [heq]
  refine ⟨?_, rfl, hmaps.1, hmaps.2⟩
  apply eq_singleton_of_length_head
  · rw [locationsForDriver_length_map, hmaps.2,
      ← locationsForDriver_length_map]
    exact hone
  · rw [← getDriverLocation_eq_head]
    exact hfindu

theorem upsert_not_found_spec (db : List Location) (ins : InsertLocation)
    (now : Nat) (newId : String)
    (hfind : db.find? (fun r => r.driverId == ins.driverId) = none)
    (hfresh : newId ∉ db.map Location.id) :
    locationsForDriver (updateDriverLocation db ins now newId).2 ins.driverId
      = [createdRow ins now newId] ∧
    (updateDriverLocation db ins now newId).1 = createdRow ins now newId ∧
    (updateDriverLocation db ins now newId).2.map Location.id =
      db.map Location.id ++ [newId] ∧
    (updateDriverLocation db ins now newId).2.map Location.driverId =
      db.map Location.driverId ++ [ins.driverId] ∧
    ((db.map Location.id).Nodup →
      ((updateDriverLocation db ins now newId).2.map Location.id).Nodup) := by
  have heq := updateDriverLocation_not_found db ins now newId hfind
  have hnone : ∀ r ∈ db, (r.driverId == ins.driverId) = false := by
    intro r hr
    simpa using List.find?_eq_none.mp hfind r hr
  have hmapid : (db ++ [createdRow ins now newId]).map Location.id =
      db.map Location.id ++ [newId] := by
    simp [createdRow]
  rw [heq]
  refine ⟨?_, rfl, hmapid, ?_, ?_⟩
  · show (db ++ [createdRow ins now newId]).filter _ = _
    rw [List.filter_append,
      List.filter_eq_nil_iff.mpr (fun r hr => by simp [hnone r hr])]
    simp [createdRow]
  · simp [createdRow]
  · intro hids
    rw [hmapid, List.nodup_append]
    exact ⟨hids, List.nodup_singleton _, by simpa using hfresh⟩

theorem second_upsert_from_single (db1 : List Location)
    (D lat2 lng2 : String) (t2 : Nat) (id2 : String) (r1 : Location)
    (h1 : locationsForDriver db1 D = [r1])
    (hids1 : (db1.map Location.id).Nodup) :
    ∃ r : Location,
      locationsForDriver
        ((updateDriverLocation db1
          { driverId := D, latitude := lat2, longitude := lng2,
            isTransmitting := true } t2 id2).2) D = [r] ∧
      getDriverLocation
        ((updateDriverLocation db1
          { driverId := D, latitude := lat2, longitude := lng2,
            isTransmitting := true } t2 id2).2) D = some r ∧
      r.driverId = D ∧ r.latitude = lat2 ∧ r.longitude = lng2 ∧
      r.isTransmitting = true ∧ r.timestamp = t2 ∧
      locationsForDriver
        (getAllActiveLocations
          ((updateDriverLocation db1
            { driverId := D, latitude := lat2, longitude := lng2,
              isTransmitting := true } t2 id2).2)) D = [r] := by
  have hf2 : db1.find? (fun r => r.driverId == D) = some r1 := by
    have hg := getDriverLocation_eq_head db1 D
    rw [h1] at hg
    exact hg
  have hcount1 : (locationsForDriver db1 D).length ≤ 1 := by
    rw [h1]
    simp
  have s2 := upsert_found_spec db1
    { driverId := D, latitude := lat2, longitude := lng2,
      isTransmitting := true } t2 id2 r1 hf2 hids1 hcount1
  have hr1d : r1.driverId = D := by
    simpa using (List.find?_some hf2)
  refine ⟨updatedRow r1
    { driverId := D, latitude := lat2, longitude := lng2,
      isTransmitting := true } t2, s2.1, ?_, hr1d, rfl, rfl, rfl, rfl, ?_⟩
  · rw [getDriverLocation_eq_head, s2.1]
    rfl
  · rw [locationsForDriver_active_comm, s2.1]
    simp [updatedRow]

/-- C3: starting from any well-formed Ledger state (unique row ids, at most
one row for the driver), two consecutive location upserts for driver D leave
exactly one LocationRecord for D, carrying the second call's coordinates,
flag and timestamp: get returns it and the transmitting list holds exactly
that one record for D. -/
theorem upsert_twice_single_record (db : List Location)
    (D lat1 lng1 lat2 lng2 : String) (t1 t2 : Nat) (id1 id2 : String)
    (hids : (db.map Location.id).Nodup)
    (hcount : (locationsForDriver db D).length ≤ 1)
    (hfresh : id1 ∉ db.map Location.id) :
    ∃ r : Location,
      locationsForDriver
        ((updateDriverLocation
          ((updateDriverLocation db
            { driverId := D, latitude := lat1, longitude := lng1,
              isTransmitting := true } t1 id1).2)
          { driverId := D, latitude := lat2, longitude := lng2,
            isTransmitting := true } t2 id2).2) D = [r] ∧
      getDriverLocation
        ((updateDriverLocation
          ((updateDriverLocation db
            { driverId := D, latitude := lat1, longitude := lng1,
              isTransmitting := true } t1 id1).2)
          { driverId := D, latitude := lat2, longitude := lng2,
            isTransmitting := true } t2 id2).2) D = some r ∧
      r.driverId = D ∧ r.latitude = lat2 ∧ r.longitude = lng2 ∧
      r.isTransmitting = true ∧ r.timestamp = t2 ∧
      locationsForDriver
        (getAllActiveLocations
          ((updateDriverLocation
            ((updateDriverLocation db
              { driverId := D, latitude := lat1, longitude := lng1,
                isTransmitting := true } t1 id1).2)
            { driverId := D, latitude := lat2, longitude := lng2,
              isTransmitting := true } t2 id2).2)) D = [r] := by
  cases hf1 : db.find? (fun r => r.driverId == D) with
  | some e =>
    have s1 := upsert_found_spec db
      { driverId := D, latitude := lat1, longitude := lng1,
        isTransmitting := true } t1 id1 e hf1 hids hcount
    exact second_upsert_from_single _ D lat2 lng2 t2 id2 _ s1.1
      (by rw [s1.2.2.1]; exact hids)
  | none =>
    have s1 := upsert_not_found_spec db
      { driverId := D, latitude := lat1, longitude := lng1,
        isTransmitting := true } t1 id1 hf1 hfresh
    exact second_upsert_from_single _ D lat2 lng2 t2 id2 _ s1.1
      (s1.2.2.2.2 hids)

/-- C3 witness: the spec's scenario from the empty Ledger, upsert (10.5,
-74.2) then (10.6, -74.3) for driver d1. -/
theorem upsert_twice_single_record_witness :
    ((([] : List Location).map Location.id).Nodup ∧
     (locationsForDriver [] "d1").length ≤ 1 ∧
     "i1" ∉ ([] : List Location).map Location.id) ∧
    (∃ r : Location,
      locationsForDriver
        ((updateDriverLocation
          ((updateDriverLocation []
            { driverId := "d1", latitude := "10.5", longitude := "-74.2",
              isTransmitting := true } 1 "i1").2)
          { driverId := "d1", latitude := "10.6", longitude := "-74.3",
            isTransmitting := true } 2 "i2").2) "d1" = [r] ∧
      getDriverLocation
        ((updateDriverLocation
          ((updateDriverLocation []
            { driverId := "d1", latitude := "10.5", longitude := "-74.2",
              isTransmitting := true } 1 "i1").2)
          { driverId := "d1", latitude := "10.6", longitude := "-74.3",
            isTransmitting := true } 2 "i2").2) "d1" = some r ∧
      r.driverId = "d1" ∧ r.latitude = "10.6" ∧ r.longitude = "-74.3" ∧
      r.isTransmitting = true ∧ r.timestamp = 2 ∧
      locationsForDriver
        (getAllActiveLocations
          ((updateDriverLocation
            ((updateDriverLocation []
              { driverId := "d1", latitude := "10.5", longitude := "-74.2",
                isTransmitting := true } 1 "i1").2)
            { driverId := "d1", latitude := "10.6", longitude := "-74.3",
              isTransmitting := true } 2 "i2").2)) "d1" = [r]) :=
  ⟨⟨by decide, by decide, by decide⟩,
    upsert_twice_single_record [] "d1" "10.5" "-74.2" "10.6" "-74.3" 1 2
      "i1" "i2" (by decide) (by decide) (by decide)⟩

/-- Sample location record of driver d2, used in witnesses. -/
def locD2 : Location :=
  { id := "L2", driverId := "d2", latitude := "1.0", longitude := "2.0",
    timestamp := 0, isTransmitting := true }

/-- C10: setting or stopping the transmission flag for a driver with no
record in the Ledger is a silent no-op: the table is unchanged, no record is
created, and the driver appears neither in get nor in the transmitting
list. -/
theorem transmission_flag_unknown_driver_noop (db : List Location)
    (D : String) (b : Bool) (t1 t2 : Nat)
    (h : ∀ r ∈ db, r.driverId ≠ D) :
    setDriverTransmissionStatus db D b t1 = db ∧
    stopDriverTransmission db D t2 = db ∧
    getDriverLocation db D = none ∧
    ∀ r ∈ getAllActiveLocations db, r.driverId ≠ D := by
  have hb : ∀ r ∈ db, (r.driverId == D) = false := by
    intro r hr
    exact beq_eq_false_iff_ne.mpr (h r hr)
  refine ⟨?_, ?_, ?_, ?_⟩
  · exact map_if_not_matched (fun r => r.driverId == D) _ db hb
  · exact map_if_not_matched (fun r => r.driverId == D) _ db hb
  · exact List.find?_eq_none.mpr (fun r hr => by simp [hb r hr])
  · intro r hr
    exact h r (List.mem_of_mem_filter hr)

/-- C10 witness: driver d1 has no record in a ledger holding only a d2 row. -/
theorem transmission_flag_unknown_driver_noop_witness :
    (∀ r ∈ [locD2], r.driverId ≠ "d1") ∧
    (setDriverTransmissionStatus [locD2] "d1" true 5 = [locD2] ∧
     stopDriverTransmission [locD2] "d1" 6 = [locD2] ∧
     getDriverLocation [locD2] "d1" = none ∧
     ∀ r ∈ getAllActiveLocations [locD2], r.driverId ≠ "d1") :=
  ⟨by decide, transmission_flag_unknown_driver_noop [locD2] "d1" true 5 6
    (by decide)⟩

/-! The at-most-one-record invariant over operation sequences (C4). -/

theorem setStatus_map_id (db : List Location) (d : String) (b : Bool)
    (t : Nat) :
    (setDriverTransmissionStatus db d b t).map Location.id =
      db.map Location.id := by
  apply map_attr_of_preserve
  intro r hr
  by_cases h : (r.driverId == d) = true
  · rw [if_pos h]
  · rw [if_neg (by simp [h])]

theorem setStatus_map_driverId (db : List Location) (d : String) (b : Bool)
    (t : Nat) :
    (setDriverTransmissionStatus db d b t).map Location.driverId =
      db.map Location.driverId := by
  apply map_attr_of_preserve
  intro r hr
  by_cases h : (r.driverId == d) = true
  · rw [if_pos h]
  · rw [if_neg (by simp [h])]

theorem filter_length_le_one_of_nodup :
    ∀ l : List String, l.Nodup → ∀ d : String,
      (l.filter (fun x => x == d)).length ≤ 1 := by
  intro l
  induction l with
  | nil => intro _ d; simp
  | cons a t ih =>
    intro h d
    have h2 := List.nodup_cons.mp h
    by_cases ha : (a == d) = true
    · rw [List.filter_cons_of_pos (p := fun x => x == d) ha]
      have had : a = d := by simpa using ha
      have hnil : t.filter (fun x => x == d) = [] := by
        apply List.filter_eq_nil_iff.mpr
        intro x hx hxd
        have hxd2 : x = d := by simpa using hxd
        exact h2.1 (by rw [had, ← hxd2]; exact hx)
      rw [hnil]
      simp
    · rw [List.filter_cons_of_neg (p := fun x => x == d) ha]
      exact ih h2.2 d

theorem insertNewDriver_mem (seen : List String) (d : String) (h : d ∈ seen) :
    insertNewDriver seen d = seen := by
  simp [insertNewDriver, h]

theorem insertNewDriver_not_mem (seen : List String) (d : String)
    (h : d ∉ seen) :
    insertNewDriver seen d = seen ++ [d] := by
  simp [insertNewDriver, h]

theorem applySteps_driver_spec :
    ∀ (steps : List LedgerStep) (db : List Location),
      (db.map Location.id).Nodup →
      (db.map Location.driverId).Nodup →
      (steps.map LedgerStep.newId).Nodup →
      (∀ s ∈ steps, s.newId ∉ db.map Location.id) →
      (applySteps steps db).map Location.driverId =
        steps.foldl upsertFold (db.map Location.driverId) ∧
      ((applySteps steps db).map Location.driverId).Nodup ∧
      ((applySteps steps db).map Location.id).Nodup := by
  intro steps
  induction steps with
  | nil => intro db h1 h2 _ _; exact ⟨rfl, h2, h1⟩
  | cons s rest ih =>
    intro db h1 h2 h3 h4
    have h3c : (s.newId :: rest.map LedgerStep.newId).Nodup := by
      simpa only [List.map_cons] using h3
    have h3p := List.nodup_cons.mp h3c
    cases hop : s.op with
    | setStatus d b =>
      have hstep : applyStep db s = setDriverTransmissionStatus db d b s.time := by
        simp [applyStep, hop]
      have hid : (applyStep db s).map Location.id = db.map Location.id := by
        rw [hstep]
        exact setStatus_map_id db d b s.time
      have hdr : (applyStep db s).map Location.driverId =
          db.map Location.driverId := by
        rw [hstep]
        exact setStatus_map_driverId db d b s.time
      have key := ih (applyStep db s) (by rw [hid]; exact h1)
        (by rw [hdr]; exact h2) h3p.2
        (fun x hx => by rw [hid]; exact h4 x (List.mem_cons_of_mem s hx))
      refine ⟨?_, key.2.1, key.2.2⟩
      show (applySteps rest (applyStep db s)).map Location.driverId = _
      rw [List.foldl_cons, key.1, hdr]
      have : upsertFold (db.map Location.driverId) s =
          db.map Location.driverId := by
        simp [upsertFold, hop]
      rw [this]
    | upsert ins =>
      have hstep : applyStep db s =
          (updateDriverLocation db ins s.time s.newId).2 := by
        simp [applyStep, hop]
      by_cases hmem : ins.driverId ∈ db.map Location.driverId
      · have hf : ∃ e, db.find? (fun r => r.driverId == ins.driverId) =
            some e := by
          cases hf0 : db.find? (fun r => r.driverId == ins.driverId) with
          | none => exact absurd ((findDriver_eq_none_iff db _).mp hf0) (by simpa using hmem)
          | some e => exact ⟨e, rfl⟩
        obtain ⟨e, hf⟩ := hf
        have hcnt : (locationsForDriver db ins.driverId).length ≤ 1 := by
          rw [locationsForDriver_length_map]
          exact filter_length_le_one_of_nodup _ h2 _
        have s1 := upsert_found_spec db ins s.time s.newId e hf h1 hcnt
        have hid : (applyStep db s).map Location.id = db.map Location.id := by
          rw [hstep]; exact s1.2.2.1
        have hdr : (applyStep db s).map Location.driverId =
            db.map Location.driverId := by
          rw [hstep]; exact s1.2.2.2
        have key := ih (applyStep db s) (by rw [hid]; exact h1)
          (by rw [hdr]; exact h2) h3p.2
          (fun x hx => by rw [hid]; exact h4 x (List.mem_cons_of_mem s hx))
        refine ⟨?_, key.2.1, key.2.2⟩
        show (applySteps rest (applyStep db s)).map Location.driverId = _
        rw [List.foldl_cons, key.1, hdr]
        have : upsertFold (db.map Location.driverId) s =
            db.map Location.driverId := by
          simp only [upsertFold, hop]
          exact insertNewDriver_mem _ _ hmem
        rw [this]
      · have hf : db.find? (fun r => r.driverId == ins.driverId) = none :=
          (findDriver_eq_none_iff db _).mpr hmem
        have s1 := upsert_not_found_spec db ins s.time s.newId hf
          (h4 s (List.mem_cons_self s rest))
        have hid : (applyStep db s).map Location.id =
            db.map Location.id ++ [s.newId] := by
          rw [hstep]; exact s1.2.2.1
        have hdr : (applyStep db s).map Location.driverId =
            db.map Location.driverId ++ [ins.driverId] := by
          rw [hstep]; exact s1.2.2.2.1
        have hidn : ((applyStep db s).map Location.id).Nodup := by
          rw [hstep]; exact s1.2.2.2.2 h1
        have hdrn : ((applyStep db s).map Location.driverId).Nodup := by
          rw [hdr, List.nodup_append]
          exact ⟨h2, List.nodup_singleton _, by simpa using hmem⟩
        have hrest : ∀ x ∈ rest, x.newId ∉ (applyStep db s).map Location.id := by
          intro x hx
          rw [hid]
          simp only [List.mem_append, List.mem_singleton]
          rintro (hc | hc)
          · exact h4 x (List.mem_cons_of_mem s hx) hc
          · exact h3p.1 (hc ▸ List.mem_map_of_mem LedgerStep.newId hx)
        have key := ih (applyStep db s) hidn hdrn h3p.2 hrest
        refine ⟨?_, key.2.1, key.2.2⟩
        show (applySteps rest (applyStep db s)).map Location.driverId = _
        rw [List.foldl_cons, key.1, hdr]
        have : upsertFold (db.map Location.driverId) s =
            db.map Location.driverId ++ [ins.driverId] := by
          simp only [upsertFold, hop]
          exact insertNewDriver_not_mem _ _ hmem
        rw [this]

/-- C4 counterexample: a sequence consisting of a single setTransmitting call
mentions one distinct driver id, yet leaves zero records in the Ledger (the
flag write is an UPDATE that matches no row and inserts nothing). -/
theorem setStatus_only_creates_no_record :
    (mentionedDrivers
      [{ op := .setStatus "d1" true, time := 0, newId := "i1" }]).length = 1 ∧
    (applySteps
      [{ op := .setStatus "d1" true, time := 0, newId := "i1" }] []).length
      = 0 := by
  decide

/-- C4 amended: starting from the empty Ledger, after any sequence of upsert
and setTransmitting calls (with pairwise distinct generated row ids), the
Ledger holds exactly one record per distinct driver id that was upserted, in
first-upsert order, and never more than one record per driver; driver ids
mentioned only by setTransmitting calls have no record. -/
theorem ledger_exactly_upserted_drivers (steps : List LedgerStep)
    (hfresh : (steps.map LedgerStep.newId).Nodup) :
    (applySteps steps []).map Location.driverId = upsertedDrivers steps ∧
    ((applySteps steps []).map Location.driverId).Nodup ∧
    (applySteps steps []).length = (upsertedDrivers steps).length := by
  have h := applySteps_driver_spec steps [] (by simp) (by simp) hfresh
    (by simp)
  refine ⟨h.1, h.2.1, ?_⟩
  rw [← List.length_map (applySteps steps []) Location.driverId, h.1]
  rfl

/-- C4 witness: upsert d1, flag-write d2, upsert d1 again — exactly one
record, for d1 only. -/
theorem ledger_exactly_upserted_drivers_witness :
    (([{ op := .upsert
          { driverId := "d1", latitude := "1", longitude := "2",
            isTransmitting := true }, time := 0, newId := "i1" },
       { op := .setStatus "d2" true, time := 1, newId := "i2" },
       { op := .upsert
          { driverId := "d1", latitude := "3", longitude := "4",
            isTransmitting := false }, time := 2, newId := "i3" }]
      : List LedgerStep).map LedgerStep.newId).Nodup ∧
    ((applySteps
        [{ op := .upsert
            { driverId := "d1", latitude := "1", longitude := "2",
              isTransmitting := true }, time := 0, newId := "i1" },
         { op := .setStatus "d2" true, time := 1, newId := "i2" },
         { op := .upsert
            { driverId := "d1", latitude := "3", longitude := "4",
              isTransmitting := false }, time := 2, newId := "i3" }]
        []).map Location.driverId =
      upsertedDrivers
        [{ op := .upsert
            { driverId := "d1", latitude := "1", longitude := "2",
              isTransmitting := true }, time := 0, newId := "i1" },
         { op := .setStatus "d2" true, time := 1, newId := "i2" },
         { op := .upsert
            { driverId := "d1", latitude := "3", longitude := "4",
              isTransmitting := false }, time := 2, newId := "i3" }] ∧
     ((applySteps
        [{ op := .upsert
            { driverId := "d1", latitude := "1", longitude := "2",
              isTransmitting := true }, time := 0, newId := "i1" },
         { op := .setStatus "d2" true, time := 1, newId := "i2" },
         { op := .upsert
            { driverId := "d1", latitude := "3", longitude := "4",
              isTransmitting := false }, time := 2, newId := "i3" }]
        []).map Location.driverId).Nodup ∧
     (applySteps
        [{ op := .upsert
            { driverId := "d1", latitude := "1", longitude := "2",
              isTransmitting := true }, time := 0, newId := "i1" },
         { op := .setStatus "d2" true, time := 1, newId := "i2" },
         { op := .upsert
            { driverId := "d1", latitude := "3", longitude := "4",
              isTransmitting := false }, time := 2, newId := "i3" }]
        []).length =
      (upsertedDrivers
        [{ op := .upsert
            { driverId := "d1", latitude := "1", longitude := "2",
              isTransmitting := true }, time := 0, newId := "i1" },
         { op := .setStatus "d2" true, time := 1, newId := "i2" },
         { op := .upsert
            { driverId := "d1", latitude := "3", longitude := "4",
              isTransmitting := false }, time := 2, newId := "i3" }]).length) :=
  ⟨by decide,
    ledger_exactly_upserted_drivers
      [{ op := .upsert
          { driverId := "d1", latitude := "1", longitude := "2",
            isTransmitting := true }, time := 0, newId := "i1" },
       { op := .setStatus "d2" true, time := 1, newId := "i2" },
       { op := .upsert
          { driverId := "d1", latitude := "3", longitude := "4",
            isTransmitting := false }, time := 2, newId := "i3" }]
      (by decide)⟩

/-! Client-side reconciliation of push events (C5, C6). -/

/-- Sample location record of driver d1, used in viewer counterexamples. -/
def locD1 : Location :=
  { id := "L1", driverId := "d1", latitude := "10.5", longitude := "-74.2",
    timestamp := 0, isTransmitting := true }

theorem filter_all_self {α : Type} (p : α → Bool) :
    ∀ l : List α, (l.filter p).all p = true := by
  intro l
  induction l with
  | nil => rfl
  | cons a t ih =>
    by_cases h : p a = true
    · rw [List.filter_cons_of_pos h]
      simp [h, ih]
    · rw [List.filter_cons_of_neg h]
      exact ih

/-- C5 counterexample: in the current admin dashboard
(src/client/src/pages/admin-dashboard.tsx), applying a locationUpdate for d1
and then a transmissionStopped for d1 leaves d1's entry in the viewer-local
map — the handler only invalidates and refetches the pulled query and
deletes nothing locally. -/
theorem transmissionStopped_entry_remains_current_admin :
    adminOnMessage (adminOnMessage [] (.locationUpdate locD1))
      (.transmissionStopped "d1") = [locD1] := by decide

/-- C5 amended: in the src/unnamed/part_011 (and part_008) version of the
admin dashboard, a transmissionStopped event for D deletes D's entry
outright — D is absent from the local map afterwards, in particular
immediately after a locationUpdate for D; in the current
admin-dashboard.tsx, the handler leaves the local map unchanged and removal
is deferred to the refetch of the pulled location list. -/
theorem transmissionStopped_removes_part011 (prev : List Location)
    (D : String) (data : Location) :
    ((adminOnMessagePart011 prev (.transmissionStopped D)).all
      (fun r => r.driverId != D)) = true ∧
    ((adminOnMessagePart011
        (adminOnMessagePart011 prev (.locationUpdate data))
        (.transmissionStopped D)).all
      (fun r => r.driverId != D)) = true ∧
    adminOnMessage prev (.transmissionStopped D) = prev := by
  refine ⟨?_, ?_, rfl⟩
  · exact filter_all_self _ prev
  · exact filter_all_self _ _

/-- C6 counterexample: with driver d1 present and transmitting in the local
map, applying transmissionStatusUpdate(d1, false) leaves the entry's
isTransmitting flag at true — the handler patches nothing locally. -/
theorem transmissionStatusUpdate_not_patched :
    adminOnMessage [locD1] (.transmissionStatusUpdate "d1" false) = [locD1] ∧
    locD1.isTransmitting = true := by decide

/-- C6 amended: applying a transmissionStatusUpdate event leaves the
viewer-local map entirely unchanged in both admin dashboard versions: no
entry's flag is patched locally (the handler only invalidates and refetches
the pulled location query); consequently other drivers' entries are
untouched and nothing changes when the driver has no entry. -/
theorem transmissionStatusUpdate_leaves_map_unchanged (prev : List Location)
    (D : String) (b : Bool) :
    adminOnMessage prev (.transmissionStatusUpdate D b) = prev ∧
    adminOnMessagePart011 prev (.transmissionStatusUpdate D b) = prev :=
  ⟨rfl, rfl⟩

end BusTrack
